import Mathlib

/-!
Verification of the cross-repo-cherry-pick tool.

This file gives a shallow embedding, in Lean, of the parts of the
repository that the verified properties speak about:

* URL normalization and remote-list handling
  (`src/src/utils/common/index.js`, second module: `normalizeUrl`,
  `getRemoteList`, `checkRemoteExists`, `getRepoNameFromUrl`);
* commit-log parsing (`getCommits`, `src/src/utils/common/index.js`);
* branch lifecycle (`src/src/utils/branch/index.js`:
  `handleBranchExists`, `handleDeleteBranch`, `createTemporaryBranch`,
  `switchTargetBranch`);
* the cherry-pick executor's stream/close event handling and the main
  pipeline (`src/src/index.js`: `cherryPickAndHandleConflicts`, `main`);
* configuration loading (`loadConfigFile`, `configCheck`, `argsCheck`).

JavaScript strings are embedded as Lean `String`s, but all computation is
done on the underlying `List Char` so every definition reduces inside the
kernel.  External `git` commands are modelled by a success oracle
(`Env : GCmd → Bool`) together with the standard effect of each command
on an abstract repository state; `process.exit(n)` is modelled as
`Except.error n`.
-/

namespace Crcp

set_option maxRecDepth 100000

/-! ## Character-list string primitives (JS string operations) -/

/-- ASCII whitespace, as consumed by `String.prototype.trim` on the inputs
that occur here. -/
def wsChar (c : Char) : Bool :=
  c = ' ' || c = '\t' || c = '\n' || c = '\r'

/-- Trim whitespace from both ends of a character list. -/
def trimChars (l : List Char) : List Char :=
  ((l.dropWhile wsChar).reverse.dropWhile wsChar).reverse

/-- JS `s.trim()`. -/
def jsTrim (s : String) : String := ⟨trimChars s.data⟩

/-- Boolean list-prefix test (structural, kernel-reducible). -/
def isPreOf : List Char → List Char → Bool
  | [], _ => true
  | _ :: _, [] => false
  | a :: as, b :: bs => a = b && isPreOf as bs

/-- Boolean list-suffix test. -/
def isSufOf (suf l : List Char) : Bool := isPreOf suf.reverse l.reverse

/-- Does `l` contain `sub` as a contiguous sublist? (JS `includes`). -/
def containsChars : List Char → List Char → Bool
  | sub, [] => isPreOf sub []
  | sub, c :: rest => isPreOf sub (c :: rest) || containsChars sub rest

/-- JS `s.includes(sub)`. -/
def jsIncludes (s sub : String) : Bool := containsChars sub.data s.data

/-- Split `l` before the first character satisfying `p`: returns the part
before that character and the part after it. -/
def breakAtFirst (p : Char → Bool) : List Char → Option (List Char × List Char)
  | [] => none
  | c :: rest =>
    if p c then some ([], rest)
    else
      match breakAtFirst p rest with
      | none => none
      | some (a, b) => some (c :: a, b)

/-- Fuelled splitter on a non-empty separator (JS `String.prototype.split`
with a string separator). -/
def splitChars : Nat → List Char → List Char → List Char → List (List Char)
  | _, _, [], acc => [acc.reverse]
  | 0, _, l, acc => [acc.reverse ++ l]
  | fuel + 1, sep, c :: rest, acc =>
    if isPreOf sep (c :: rest) then
      acc.reverse :: splitChars fuel sep ((c :: rest).drop sep.length) []
    else
      splitChars fuel sep rest (c :: acc)

/-- JS `s.split(sep)` for a non-empty string separator. -/
def jsSplit (s sep : String) : List String :=
  (splitChars (s.data.length + 1) sep.data s.data []).map (fun l => ⟨l⟩)

/-- Case-insensitive list-prefix test. -/
def isPreCI : List Char → List Char → Bool
  | [], _ => true
  | _ :: _, [] => false
  | a :: as, b :: bs => (a.toLower = b.toLower) && isPreCI as bs

/-- Case-insensitive list equality. -/
def eqCI : List Char → List Char → Bool
  | [], [] => true
  | a :: as, b :: bs => (a.toLower = b.toLower) && eqCI as bs
  | _, _ => false

/-- Replace the first tab character by `": "` (JS `r.replace("\t", ": ")`). -/
def replaceFirstTab (l : List Char) : List Char :=
  match breakAtFirst (fun c => c = '\t') l with
  | none => l
  | some (a, b) => a ++ ':' :: ' ' :: b

/-! ## RemoteResolver: `normalizeUrl` and `getRepoNameFromUrl`

`normalizeUrl` (src/src/utils/common/index.js:10-33) matches the URL
against the two anchored patterns

* ssh:   `^git@([^:]+):([^/]+)\/(.+)\.git$`
* https: `^https?:\/\/([^/]+)\/([^/]+)\/(.+)\.git$`

and rebuilds `https://host/user/repo.git`; a URL matching neither pattern
prints an error and calls `process.exit(1)`, modelled as `.error 1`.

Both regexes are anchored and each capture group is a negated character
class (matching exactly up to the first occurrence of its delimiter) or
the final greedy `(.+)\.git$` (matching everything up to the trailing
`.git`), so the decomposition below is the unique regex match. -/

/-- Match `^git@([^:]+):([^/]+)\/(.+)\.git$`, returning (host, user, repo). -/
def sshMatch (url : String) : Option (String × String × String) :=
  let cs := url.data
  if isPreOf "git@".data cs then
    match breakAtFirst (fun c => c = ':') (cs.drop 4) with
    | none => none
    | some (host, rest1) =>
      if host = [] then none
      else
        match breakAtFirst (fun c => c = '/') rest1 with
        | none => none
        | some (user, rest2) =>
          if user = [] then none
          else if isSufOf ".git".data rest2 && Nat.ble 5 rest2.length then
            some (⟨host⟩, ⟨user⟩, ⟨rest2.take (rest2.length - 4)⟩)
          else none
  else none

/-- Match `^https?:\/\/([^/]+)\/([^/]+)\/(.+)\.git$`, returning
(host, user, repo). -/
def httpsMatch (url : String) : Option (String × String × String) :=
  let cs := url.data
  let after? : Option (List Char) :=
    if isPreOf "https://".data cs then some (cs.drop 8)
    else if isPreOf "http://".data cs then some (cs.drop 7)
    else none
  match after? with
  | none => none
  | some rest0 =>
    match breakAtFirst (fun c => c = '/') rest0 with
    | none => none
    | some (host, rest1) =>
      if host = [] then none
      else
        match breakAtFirst (fun c => c = '/') rest1 with
        | none => none
        | some (user, rest2) =>
          if user = [] then none
          else if isSufOf ".git".data rest2 && Nat.ble 5 rest2.length then
            some (⟨host⟩, ⟨user⟩, ⟨rest2.take (rest2.length - 4)⟩)
          else none

/-- Embedding of `normalizeUrl` (src/src/utils/common/index.js:10-33).  `.error 1`
models `process.exit(1)` on a URL matching neither pattern. -/
def normalizeUrl (url : String) : Except Nat String :=
  match sshMatch url with
  | some (host, user, repo) =>
    .ok ("https://" ++ host ++ "/" ++ user ++ "/" ++ repo ++ ".git")
  | none =>
    match httpsMatch url with
    | some (host, user, repo) =>
      .ok ("https://" ++ host ++ "/" ++ user ++ "/" ++ repo ++ ".git")
    | none => .error 1

/-- The capture group of
`^(?:https?:\/\/|git@)(?:[^/:]+)[/:]([^/]+\/[^/.]+)(?:\.git)?$/i`
(`getRepoNameFromUrl`, src/src/utils/repo module).  Returns the matched
`user/name` path, or `none` when the URL does not match. -/
def repoPathMatch (url : String) : Option (List Char) :=
  let cs := url.data
  let after? : Option (List Char) :=
    if isPreCI "https://".data cs then some (cs.drop 8)
    else if isPreCI "http://".data cs then some (cs.drop 7)
    else if isPreCI "git@".data cs then some (cs.drop 4)
    else none
  match after? with
  | none => none
  | some rest0 =>
    match breakAtFirst (fun c => c = '/' || c = ':') rest0 with
    | none => none
    | some (host, rest1) =>
      if host = [] then none
      else
        match breakAtFirst (fun c => c = '/') rest1 with
        | none => none
        | some (user, rest2) =>
          if user = [] then none
          else if rest2.contains '/' then none
          else
            match breakAtFirst (fun c => c = '.') rest2 with
            | none => if rest2 = [] then none else some (user ++ '/' :: rest2)
            | some (stem, tail) =>
              if stem = [] then none
              else if eqCI tail "git".data then some (user ++ '/' :: stem)
              else none

/-- Embedding of `getRepoNameFromUrl` (src/src/utils/repo module): last path segment of
the matched repo path, or the fixed fallback name on no match. -/
def getRepoNameFromUrl (url : String) : String :=
  match repoPathMatch url with
  | some repoPath =>
    ⟨(splitChars (repoPath.length + 1) ['/'] repoPath []).getLastD []⟩
  | none => "source-repo"

/-! ## Remote listing: `getRemoteList` and `checkRemoteExists`

`getRemoteList` (src/src/utils/common/index.js:498-516) takes the raw
output of `git remote -v`, trims it, splits it into lines, replaces the
first tab of each line by `": "`, and keeps only the lines that contain
`"(fetch)"` and contain neither `"undefined"` nor `"origin:"`. -/

/-- Embedding of `getRemoteList`, as a pure function of the raw `git remote -v`
output. -/
def getRemoteList (raw : String) : List String :=
  ((jsSplit (jsTrim raw) "\n").map (fun r => (⟨replaceFirstTab r.data⟩ : String))).filter
    (fun i => jsIncludes i "(fetch)" && !jsIncludes i "undefined" && !jsIncludes i "origin:")

/-- Sequential `Except`-valued map: errors propagate from the first
failing element, as in a JS `Array.prototype.map` whose callback exits. -/
def exceptMapM (f : α → Except ε β) : List α → Except ε (List β)
  | [] => .ok []
  | a :: as =>
    match f a with
    | .error e => .error e
    | .ok b =>
      match exceptMapM f as with
      | .error e => .error e
      | .ok bs => .ok (b :: bs)

/-- The URL strings `checkRemoteExists` feeds to `normalizeUrl`: from
each remote line, JS takes `line.split(": ")[1]` (dropping `undefined`
and empty results) and then `line.split(" ")[0]` (dropping empty
results).  This mirrors src/src/utils/common/index.js:476-480. -/
def remoteUrlCandidates (raw : String) : List String :=
  ((((getRemoteList raw).map (fun line => (jsSplit line ": ")[1]?)).filterMap
        (fun o =>
          match o with
          | none => none
          | some s => if s = "" then none else some s)).map
      (fun line => (jsSplit line " ").headD "")).filter
    (fun s => s != "")

/-- Embedding of `checkRemoteExists` (src/src/utils/common/index.js:473-490): true iff
the normalized candidate URL occurs among the normalized URLs of the
listed remotes.  Every remote URL is normalized (left to right) before
the candidate is normalized and compared, exactly as in the JS chain. -/
def checkRemoteExists (raw remoteRepo : String) : Except Nat Bool :=
  match exceptMapM normalizeUrl (remoteUrlCandidates raw) with
  | .error e => .error e
  | .ok remotes =>
    match normalizeUrl remoteRepo with
    | .error e => .error e
    | .ok normalizedInput => .ok (remotes.contains normalizedInput)

/-! ## Commit-log parsing: `getCommits`

`getCommits` (src/src/utils/common/index.js:101-138) runs
`git log remote/branch --pretty=format:"%ad %an > %s - %h"` and parses
each output line with
`const [message, ...rest] = line.split(" - "); const hash = rest.join(" - ");`.
-/

/-- JS `Array.prototype.join` with a separator. -/
def joinSep (sep : String) : List String → String
  | [] => ""
  | [s] => s
  | s :: t :: rest => s ++ sep ++ joinSep sep (t :: rest)

/-- Embedding of `chalk.green`: wraps the text in the SGR color codes chalk emits. -/
def chalkGreen (s : String) : String := "\x1b[32m" ++ s ++ "\x1b[39m"

/-- The per-line parser of `getCommits`: from a log line, produce the
inquirer choice `{ name, value }` (here a pair), where `value` is the
string the tool later cherry-picks as the commit hash. -/
def parseCommitLine (index : Nat) (line : String) : String × String :=
  let parts := jsSplit line " - "
  let message := parts.headD ""
  let hash := joinSep " - " parts.tail
  let formattedMessage := if index = 0 then chalkGreen message else message
  (formattedMessage ++ " (" ++ hash ++ ")", jsTrim hash)

/-- The parsing step of `getCommits` over the whole `git log` output. -/
def getCommitEntries (logOutput : String) : List (String × String) :=
  (jsSplit logOutput "\n").enum.map (fun p => parseCommitLine p.1 p.2)

/-! ## CherryPickExecutor: stream events of `cherryPickAndHandleConflicts`

`cherryPickAndHandleConflicts` (src/src/index.js:29-60) spawns
`git cherry-pick <hash>` and installs three handlers:

* `stdout data`: log only;
* `stderr data`: log, and if `statusDisplay` is still true, run
  `git status` once and set `statusDisplay = false`;
* `close code`: if `code === 0`, resolve the promise.  There is no
  branch for a non-zero code: neither `resolve` nor `reject` runs.

The handlers are modelled as a fold over the subprocess's event list. -/

inductive PromiseState
  | pending
  | resolved
  | rejected
deriving DecidableEq

inductive CpEvent
  | stdoutData (s : String)
  | stderrData (s : String)
  | closeEvt (code : Nat)
deriving DecidableEq

structure CpState where
  statusDisplay : Bool
  statusDumps : Nat
  promise : PromiseState
deriving DecidableEq

/-- One subprocess event, as handled by the three listeners. -/
def cpStep (st : CpState) (e : CpEvent) : CpState :=
  match e with
  | .stdoutData _ => st
  | .stderrData _ =>
    if st.statusDisplay then
      { st with statusDisplay := false, statusDumps := st.statusDumps + 1 }
    else st
  | .closeEvt code =>
    if code = 0 then { st with promise := .resolved } else st

def cpInit : CpState := ⟨true, 0, .pending⟩

/-- The state of one `cherryPickAndHandleConflicts` invocation after the
subprocess emitted `events`, in order. -/
def cpRun (events : List CpEvent) : CpState := events.foldl cpStep cpInit

def isStderrData : CpEvent → Bool
  | .stderrData _ => true
  | _ => false

/-! ## Git command model

The tool drives `git` through `execSync`/`spawn`.  Commands are modelled
by `GCmd`; whether a given invocation succeeds is an input of the run (the
oracle `Env`), and a successful command has its standard effect on an
abstract repository state (`GitState`): the local branch list (name and
tip) plus the checked-out branch.  `process.exit(1)` is `Except.error 1`.
Each embedded function also records the trace of attempted commands. -/

inductive GCmd
  | branchList (name : String)
  | branchDelete (name : String)
  | checkoutNew (name src : String)
  | checkoutNewHead (name : String)
  | checkout (name : String)
  | pushUpstream (name : String)
  | fetchCmd (remote branch : String)
  | cherryPick (hash : String)
  | pushForce (src dst : String)
  | gitStatus
deriving DecidableEq

structure GitState where
  branches : List (String × String)
  current : String
deriving DecidableEq

/-- Resolve a ref name: the tip of a local branch of that name, else the
ref name itself (e.g. a remote-tracking ref). -/
def resolveRef (st : GitState) (r : String) : String :=
  match st.branches.find? (fun p => p.1 == r) with
  | some p => p.2
  | none => r

/-- Is a local branch with this name present? (what
`git branch --list <name>` reports non-empty output for). -/
def branchExistsB (st : GitState) (name : String) : Bool :=
  st.branches.any (fun p => p.1 == name)

/-- Success oracle for external git commands. -/
def Env : Type := GCmd → Bool

/-- Result of an embedded stateful function: outcome (or process exit),
the repository state it left behind, and the commands it attempted. -/
structure RunRes (α : Type) where
  res : Except Nat α
  state : GitState
  trace : List GCmd

/-- Sequencing: on error, stop with the accumulated trace; on success,
continue from the new state and append the traces. -/
def rbind (r : RunRes α) (k : α → GitState → RunRes β) : RunRes β :=
  match r.res with
  | .error e => ⟨.error e, r.state, r.trace⟩
  | .ok a =>
    let r2 := k a r.state
    ⟨r2.res, r2.state, r.trace ++ r2.trace⟩

/-- Embedding of `handleBranchExists` (src/src/utils/branch/index.js:9-22): query the
branch list; a failing query exits the process. -/
def handleBranchExists (env : Env) (name : String) (st : GitState) : RunRes Bool :=
  if env (.branchList name) then ⟨.ok (branchExistsB st name), st, [.branchList name]⟩
  else ⟨.error 1, st, [.branchList name]⟩

/-- Embedding of `handleDeleteBranch` (src/src/utils/branch/index.js:28-42):
`git branch -D <name>`; failure exits the process with code 1. -/
def handleDeleteBranch (env : Env) (name : String) (st : GitState) : RunRes Unit :=
  if env (.branchDelete name) then
    ⟨.ok (), { st with branches := st.branches.filter (fun p => !(p.1 == name)) },
      [.branchDelete name]⟩
  else ⟨.error 1, st, [.branchDelete name]⟩

/-- The `git checkout -b <name> <src>` step of `createTemporaryBranch`;
failure is caught by the surrounding try/catch and exits with code 1. -/
def checkoutNewStep (env : Env) (name src : String) (st : GitState) : RunRes Unit :=
  if env (.checkoutNew name src) then
    ⟨.ok (), { branches := (name, resolveRef st src) :: st.branches, current := name },
      [.checkoutNew name src]⟩
  else ⟨.error 1, st, [.checkoutNew name src]⟩

/-- Embedding of `createTemporaryBranch` (src/src/utils/branch/index.js:49-70): if the
branch exists, force-delete it, then check out a new branch from the
source ref. -/
def createTemporaryBranch (env : Env) (branchName sourceBranch : String)
    (st : GitState) : RunRes Unit :=
  rbind (handleBranchExists env branchName st) (fun ex st1 =>
    if ex then
      rbind (handleDeleteBranch env branchName st1) (fun _ st2 =>
        checkoutNewStep env branchName sourceBranch st2)
    else checkoutNewStep env branchName sourceBranch st1)

/-- Embedding of `switchTargetBranch` (src/src/utils/branch/index.js:78-94): switch to
an existing target branch, or create it from the current HEAD and push it
upstream to origin. -/
def switchTargetBranch (env : Env) (targetBranch : String) (st : GitState) :
    RunRes Unit :=
  rbind (handleBranchExists env targetBranch st) (fun ex st1 =>
    if ex then
      if env (.checkout targetBranch) then
        ⟨.ok (), { st1 with current := targetBranch }, [.checkout targetBranch]⟩
      else ⟨.error 1, st1, [.checkout targetBranch]⟩
    else
      if env (.checkoutNewHead targetBranch) then
        let st2 : GitState :=
          { branches := (targetBranch, resolveRef st1 st1.current) :: st1.branches,
            current := targetBranch }
        if env (.pushUpstream targetBranch) then
          ⟨.ok (), st2, [.checkoutNewHead targetBranch, .pushUpstream targetBranch]⟩
        else ⟨.error 1, st2, [.checkoutNewHead targetBranch, .pushUpstream targetBranch]⟩
      else ⟨.error 1, st1, [.checkoutNewHead targetBranch]⟩)

/-! ## WorkflowOrchestrator: `main` (src/src/index.js:63-177)

`cherryConfig` is the record `main` builds; `isInit` embeds the source
field `isInitialized`. -/

structure CherryConfig where
  usingRemoteName : String
  usingRemoteUrl : String
  sourceBranch : String
  commitHash : String
  targetBranch : String
  isInit : Bool
deriving DecidableEq

inductive MainOutcome
  | pushed
  | completedNotPushed
  | caughtError
  | neverSettled
  | exited (code : Nat)
deriving DecidableEq

structure MainRes where
  outcome : MainOutcome
  state : GitState
  trace : List GCmd

/-- The git pipeline of `main` (src/src/index.js:127-172): fetch, create
the temporary branch, ensure the target branch, cherry-pick, then — only
if the cherry-pick promise resolved — prompt and optionally force-push.

`events` are the stream/close events of the spawned cherry-pick process;
`pushConfirm` is the user's answer to the push prompt.  A failing
`spawn` (oracle false on `cherryPick`) rejects the promise, which the
attached `.catch` turns into `caughtError`; a non-zero exit code leaves
the promise unsettled (`neverSettled`) because the close handler only
resolves on code 0. -/
def mainPipeline (env : Env) (cfg : CherryConfig) (events : List CpEvent)
    (pushConfirm : Bool) (st : GitState) : MainRes :=
  let tempName := "temp-" ++ cfg.sourceBranch
  let fetchC := GCmd.fetchCmd cfg.usingRemoteName cfg.sourceBranch
  if env fetchC then
    let r1 := createTemporaryBranch env tempName
      (cfg.usingRemoteName ++ "/" ++ cfg.sourceBranch) st
    match r1.res with
    | .error e => ⟨.exited e, r1.state, fetchC :: r1.trace⟩
    | .ok _ =>
      let r2 := switchTargetBranch env cfg.targetBranch r1.state
      let preTrace := fetchC :: (r1.trace ++ r2.trace)
      match r2.res with
      | .error e => ⟨.exited e, r2.state, preTrace⟩
      | .ok _ =>
        if env (.cherryPick cfg.commitHash) then
          let cp := cpRun events
          let cpT := GCmd.cherryPick cfg.commitHash ::
            (if cp.statusDumps = 0 then [] else [GCmd.gitStatus])
          match cp.promise with
          | .pending => ⟨.neverSettled, r2.state, preTrace ++ cpT⟩
          | .rejected => ⟨.caughtError, r2.state, preTrace ++ cpT⟩
          | .resolved =>
            if pushConfirm then
              if env (.pushForce tempName cfg.targetBranch) then
                ⟨.pushed, r2.state, preTrace ++ cpT ++ [.pushForce tempName cfg.targetBranch]⟩
              else
                ⟨.caughtError, r2.state, preTrace ++ cpT ++ [.pushForce tempName cfg.targetBranch]⟩
            else ⟨.completedNotPushed, r2.state, preTrace ++ cpT⟩
        else ⟨.caughtError, r2.state, preTrace ++ [.cherryPick cfg.commitHash]⟩
  else ⟨.exited 1, st, [fetchC]⟩

/-! ## Configuration loading (`loadConfigFile`, `configCheck`, `argsCheck`) -/

/-- The shape of `.crcpconfig.json` after `JSON.parse`: each field either
absent (`none`) or a string. -/
structure CrcpConfig where
  sourceRepoUrl : Option String
  sourceBranch : Option String
  commitHash : Option String
  targetBranch : Option String
deriving DecidableEq

/-- JS truthiness of a possibly-absent string field. -/
def truthyOpt : Option String → Bool
  | none => false
  | some s => s != ""

/-- Embedding of `loadConfigFile` (src/src/utils/common/index.js:283-307): `null` when
the file does not exist; the contents are read and parsed inside a
try/catch, and any read/parse error is printed and turned into `null`.
`parsed` is the outcome `JSON.parse` would produce on the file's text. -/
def loadConfigFile (fileExists : Bool) (parsed : Except Unit CrcpConfig) :
    Option CrcpConfig :=
  if !fileExists then none
  else
    match parsed with
    | .ok c => some c
    | .error _ => none

/-- The `cherryConfig` record as initialized at the top of `main`. -/
def emptyCherryConfig : CherryConfig := ⟨"", "", "", "", "", false⟩

/-- Embedding of `configCheck` (services/config module): a `null` config leaves the
state untouched; a present config with any missing/empty required field
exits with code 1; otherwise the state is populated and the
initialization flag set. -/
def configCheck (st : CherryConfig) (config : Option CrcpConfig) :
    Except Nat CherryConfig :=
  match config with
  | none => .ok st
  | some c =>
    if !truthyOpt c.sourceRepoUrl then .error 1
    else if !truthyOpt c.targetBranch then .error 1
    else if !truthyOpt c.sourceBranch then .error 1
    else if !truthyOpt c.commitHash then .error 1
    else
      .ok { usingRemoteName := getRepoNameFromUrl (c.sourceRepoUrl.getD "")
            usingRemoteUrl := c.sourceRepoUrl.getD ""
            sourceBranch := c.sourceBranch.getD ""
            commitHash := c.commitHash.getD ""
            targetBranch := c.targetBranch.getD ""
            isInit := true }

/-- Embedding of `argsCheck` (services/args module): with no arguments the state is
untouched; with arguments, the first four must be truthy (else exit 1)
and then populate the state and set the initialization flag. -/
def argsCheck (st : CherryConfig) (args : List String) : Except Nat CherryConfig :=
  if args.length == 0 then .ok st
  else if !truthyOpt args[0]? then .error 1
  else if !truthyOpt args[1]? then .error 1
  else if !truthyOpt args[2]? then .error 1
  else if !truthyOpt args[3]? then .error 1
  else
    .ok { usingRemoteName := getRepoNameFromUrl (args.headD "")
          usingRemoteUrl := args.headD ""
          sourceBranch := args.getD 1 ""
          commitHash := args.getD 2 ""
          targetBranch := args.getD 3 ""
          isInit := true }

/-- The configuration phase of `main` (src/src/index.js:75-78):
`configCheck` then `argsCheck`, starting from the fresh record. -/
def configPhase (fileExists : Bool) (parsed : Except Unit CrcpConfig)
    (args : List String) : Except Nat CherryConfig :=
  match configCheck emptyCherryConfig (loadConfigFile fileExists parsed) with
  | .error e => .error e
  | .ok st1 => argsCheck st1 args

/-! ## Identifier binding in `main` (src/src/index.js:63-144)

`main`'s body is one block.  Its `let`/`const` declarations —
`cherryConfig`, `isInitialized` (line 65-73) and the destructuring
`const { usingRemoteName, usingRemoteUrl, sourceBranch, commitHash,
targetBranch } = cherryConfig` (line 110-116) — are hoisted to the top of
that block and sit in the temporal dead zone until their declaration
statement runs.  The interactive branch (line 84-108) runs before the
destructuring declaration and assigns those identifiers.  The interpreter
below models exactly this: assigning to a hoisted-but-uninitialized
binding, or (in strict mode) to an undeclared identifier, throws a
`ReferenceError` and aborts the function. -/

inductive JsStmt
  | declareInit (x : String)
  | assign (x : String)
  | marker (m : String)

structure JsRun where
  initialized : List String
  reached : List String
  thrown : Option String
deriving DecidableEq

/-- Run a statement list in a block whose hoisted `let`/`const` names are
`scope`. -/
def runStmts (scope : List String) : List JsStmt → JsRun → JsRun
  | [], r => r
  | s :: rest, r =>
    match s with
    | .declareInit x => runStmts scope rest { r with initialized := x :: r.initialized }
    | .assign x =>
      if scope.contains x && !(r.initialized.contains x) then
        { r with thrown := some "ReferenceError" }
      else if !(scope.contains x) then
        { r with thrown := some "ReferenceError" }
      else runStmts scope rest r
    | .marker m => runStmts scope rest { r with reached := r.reached ++ [m] }

/-- The hoisted `let`/`const` names of `main`'s body block. -/
def mainScope : List String :=
  ["cherryConfig", "isInitialized", "usingRemoteName", "usingRemoteUrl",
   "sourceBranch", "commitHash", "targetBranch"]

/-- The identifier assignments of the interactive branch
(src/src/index.js:92-101). -/
def interactiveAssigns : List JsStmt :=
  [.assign "usingRemoteName", .assign "usingRemoteUrl", .assign "sourceBranch",
   .assign "commitHash", .assign "targetBranch"]

/-- The statements of `main` that touch identifier bindings or reach the
git pipeline, with the `if (!cherryConfig.isInitialized)` branch resolved
by the `isInit` flag. -/
def mainStmts (isInit : Bool) : List JsStmt :=
  [.declareInit "cherryConfig", .declareInit "isInitialized"]
    ++ (if isInit then [] else interactiveAssigns)
    ++ [.declareInit "usingRemoteName", .declareInit "usingRemoteUrl",
        .declareInit "sourceBranch", .declareInit "commitHash",
        .declareInit "targetBranch"]
    ++ [.marker "fetch", .marker "createTemporaryBranch",
        .marker "switchTargetBranch", .marker "cherry-pick"]

/-- Execution of `main`'s binding-relevant statements. -/
def mainRun (isInit : Bool) : JsRun :=
  runStmts mainScope (mainStmts isInit) ⟨[], [], none⟩

/-! ## Concrete fixtures used by witnesses and counterexamples -/

/-- An oracle on which every git command succeeds. -/
def envAll : Env := fun _ => true

/-- A repository with a `main` branch checked out. -/
def stMain : GitState := ⟨[("main", "tipM"), ("release", "tipR")], "main"⟩

/-- A repository with a `main` branch checked out and no `release`. -/
def stNoRelease : GitState := ⟨[("main", "tipM")], "main"⟩

/-- An oracle on which every git command succeeds except branch
deletion. -/
def envNoDel : Env := fun c =>
  match c with
  | .branchDelete _ => false
  | _ => true

/-- A repository in which a stale `temp-main` branch is still present. -/
def stStaleTemp : GitState := ⟨[("temp-main", "old"), ("main", "tipM")], "main"⟩

/-- The end-to-end configuration of the spec's scenario A. -/
def cfgA : CherryConfig :=
  ⟨"lib", "git@github.com:acme/lib.git", "main", "abc123", "release", true⟩

/-- Raw `git remote -v` output with an `origin` entry and one connected
remote `a` (fetch and push lines). -/
def rawRemotes : String :=
  "origin\tgit@h:me/mine.git (fetch)\norigin\tgit@h:me/mine.git (push)\na\thttps://h/o/r.git (fetch)\na\thttps://h/o/r.git (push)"

/-- Raw `git remote -v` output whose connected remote `b` has a malformed
URL. -/
def rawBadRemote : String :=
  "b\tnot-a-url (fetch)\na\thttps://h/o/r.git (fetch)"

/-- A `git log --pretty=format:"%ad %an > %s - %h"` line whose subject
itself contains the field separator `" - "`. -/
def sepSubjectLine : String := "2024-05-01 10:11:12 Alice > fix a - b bug - abc1234"

/-! ## Theorems -/

lemma cpFold_display_false (evs : List CpEvent) :
    ∀ st : CpState, st.statusDisplay = false →
      (evs.foldl cpStep st).statusDumps = st.statusDumps ∧
      (evs.foldl cpStep st).statusDisplay = false := by
  induction evs with
  | nil => intro st h; exact ⟨rfl, h⟩
  | cons e rest ih =>
    intro st h
    cases e with
    | stdoutData s => simpa using ih st h
    | stderrData s =>
      have : cpStep st (.stderrData s) = st := by simp [cpStep, h]
      simpa [this] using ih st h
    | closeEvt code =>
      by_cases hc : code = 0
      · have h1 : cpStep st (.closeEvt code) = { st with promise := .resolved } := by
          simp [cpStep, hc]
        have := ih { st with promise := .resolved } h
        simpa [h1] using this
      · have h1 : cpStep st (.closeEvt code) = st := by simp [cpStep, hc]
        simpa [h1] using ih st h

lemma cpFold_display_true (evs : List CpEvent) :
    ∀ st : CpState, st.statusDisplay = true →
      (evs.foldl cpStep st).statusDumps =
        st.statusDumps + (if evs.any isStderrData then 1 else 0) := by
  induction evs with
  | nil => intro st _; simp
  | cons e rest ih =>
    intro st h
    cases e with
    | stdoutData s => simpa [isStderrData] using ih st h
    | stderrData s =>
      have h1 : cpStep st (.stderrData s) =
          { st with statusDisplay := false, statusDumps := st.statusDumps + 1 } := by
        simp [cpStep, h]
      have h2 := (cpFold_display_false rest
        { st with statusDisplay := false, statusDumps := st.statusDumps + 1 } (by simp)).1
      simp [h1, h2, isStderrData]
    | closeEvt code =>
      by_cases hc : code = 0
      · have h1 : cpStep st (.closeEvt code) = { st with promise := .resolved } := by
          simp [cpStep, hc]
        have := ih { st with promise := .resolved } h
        simpa [h1, isStderrData] using this
      · have h1 : cpStep st (.closeEvt code) = st := by simp [cpStep, hc]
        simpa [h1, isStderrData] using ih st h

/-- C7: within one `cherryPickAndHandleConflicts` invocation, the
`git status` dump guarded by `statusDisplay` runs exactly on the first
error-stream data event and never again: over any event sequence it runs
`1` time when some stderr event occurs and `0` times otherwise (hence at
most once), and it has already run by the end of the first stderr
event. -/
theorem cherryPick_status_dump_once (events : List CpEvent) :
    (cpRun events).statusDumps = (if events.any isStderrData then 1 else 0) ∧
    (cpRun events).statusDumps ≤ 1 ∧
    (∀ (pre : List CpEvent) (d : String) (post : List CpEvent),
      events = pre ++ CpEvent.stderrData d :: post →
        (cpRun (pre ++ [CpEvent.stderrData d])).statusDumps = 1) := by
  have main : ∀ evs : List CpEvent,
      (cpRun evs).statusDumps = (if evs.any isStderrData then 1 else 0) := by
    intro evs
    have := cpFold_display_true evs cpInit rfl
    simpa [cpRun, cpInit] using this
  refine ⟨main events, ?_, ?_⟩
  · rw [main events]; split <;> simp
  · intro pre d post _
    rw [main (pre ++ [CpEvent.stderrData d])]
    simp [isStderrData]

/-- Witness for C7 at a concrete event sequence: two stderr events and a
non-zero close still produce exactly one status dump, already performed
at the first stderr event. -/
theorem cherryPick_status_dump_once_witness :
    (cpRun [CpEvent.stderrData "e1"]).statusDumps = 1 ∧
    (cpRun [CpEvent.stderrData "e1", CpEvent.stderrData "e2",
      CpEvent.closeEvt 1]).statusDumps =
      (if ([CpEvent.stderrData "e1", CpEvent.stderrData "e2",
        CpEvent.closeEvt 1].any isStderrData) then 1 else 0) :=
  ⟨(cherryPick_status_dump_once
      [CpEvent.stderrData "e1", CpEvent.stderrData "e2", CpEvent.closeEvt 1]).2.2
      [] "e1" [CpEvent.stderrData "e2", CpEvent.closeEvt 1] rfl,
   (cherryPick_status_dump_once
      [CpEvent.stderrData "e1", CpEvent.stderrData "e2", CpEvent.closeEvt 1]).1⟩

/-- C1: the close handler of `cherryPickAndHandleConflicts`
(src/src/index.js:50-55) resolves only on exit code 0.  On a non-zero
exit (the conflict case) neither `resolve` nor `reject` runs: the promise
stays pending, and the only reaction to the failure was the one-time
`git status` dump from the stderr handler — there is no porcelain-status
probe and no `Conflicted`/`Failed` classification. -/
theorem cherryPick_nonzero_exit_never_settles :
    (cpRun [CpEvent.stderrData "error: could not apply abc1234",
      CpEvent.closeEvt 1]).promise = PromiseState.pending ∧
    (cpRun [CpEvent.stderrData "error: could not apply abc1234",
      CpEvent.closeEvt 1]).statusDumps = 1 ∧
    (cpRun [CpEvent.closeEvt 0]).promise = PromiseState.resolved :=
  ⟨rfl, rfl, rfl⟩

/-- C8: running `main` with an uninitialized configuration (no config
file, no arguments) reaches the interactive branch, whose first
assignment `usingRemoteName = remoteName` targets a binding hoisted by
the later `const { usingRemoteName, ... } = cherryConfig` declaration and
still in its temporal dead zone, so a `ReferenceError` is thrown and no
pipeline step (fetch, branch creation/switch, cherry-pick) is ever
reached; with an initialized configuration the same statements run to
completion and reach the whole pipeline. -/
theorem main_interactive_reference_error :
    (mainRun false).thrown = some "ReferenceError" ∧
    (mainRun false).reached = [] ∧
    (mainRun true).thrown = none ∧
    (mainRun true).reached =
      ["fetch", "createTemporaryBranch", "switchTargetBranch", "cherry-pick"] := by
  refine ⟨?_, ?_, ?_, ?_⟩ <;> rfl

/-- C10: a configuration file that exists but whose contents fail to
parse is treated exactly like an absent file: `loadConfigFile` yields
`null`, `configCheck` leaves the fresh state untouched (initialization
flag still false), and the configuration phase continues into argument
mode identically to the no-file case; with no arguments either, the phase
ends with the untouched, uninitialized state (interactive mode). -/
theorem invalid_config_file_like_absent (parsed : Except Unit CrcpConfig)
    (args : List String) :
    loadConfigFile true (.error ()) = none ∧
    configCheck emptyCherryConfig (loadConfigFile true (.error ())) =
      .ok emptyCherryConfig ∧
    configPhase true (.error ()) args = configPhase false parsed args ∧
    (args = [] →
      configPhase true (.error ()) args = .ok emptyCherryConfig ∧
      emptyCherryConfig.isInit = false) := by
  refine ⟨rfl, rfl, rfl, ?_⟩
  rintro rfl
  exact ⟨rfl, rfl⟩

/-- Witness for C10: an existing config file with unparsable contents and
an empty argument list end the configuration phase in the untouched,
uninitialized state. -/
theorem invalid_config_file_like_absent_witness :
    configPhase true (.error ()) [] = configPhase false (.error ()) [] ∧
    configPhase true (.error ()) [] = .ok emptyCherryConfig ∧
    emptyCherryConfig.isInit = false :=
  ⟨(invalid_config_file_like_absent (.error ()) []).2.2.1,
   ((invalid_config_file_like_absent (.error ()) []).2.2.2 rfl).1,
   ((invalid_config_file_like_absent (.error ()) []).2.2.2 rfl).2⟩

/-- C3: `getCommits` parses a log line with
`const [message, ...rest] = line.split(" - "); const hash = rest.join(" - ")`,
so on a line whose subject contains the separator `" - "` the value used
as the commit hash is the join of everything after the first separator —
not the line's trailing separator-delimited token. -/
theorem getCommits_hash_not_trailing_token :
    (parseCommitLine 1 sepSubjectLine).2 = "b bug - abc1234" ∧
    (jsSplit sepSubjectLine " - ").getLastD "" = "abc1234" ∧
    (parseCommitLine 1 sepSubjectLine).2 ≠ (jsSplit sepSubjectLine " - ").getLastD "" ∧
    (getCommitEntries sepSubjectLine).map Prod.snd = ["b bug - abc1234"] := by
  refine ⟨by decide, by decide, by decide, by decide⟩

lemma exceptMapM_mem {α β ε : Type} (f : α → Except ε β) :
    ∀ (l : List α) (l' : List β), exceptMapM f l = .ok l' →
      ∀ v : β, (v ∈ l' ↔ ∃ u ∈ l, f u = .ok v) := by
  intro l
  induction l with
  | nil =>
    intro l' h v
    simp [exceptMapM] at h
    subst h
    simp
  | cons a as ih =>
    intro l' h v
    rw [exceptMapM] at h
    cases hfa : f a with
    | error e => rw [hfa] at h; cases h
    | ok b =>
      rw [hfa] at h
      cases hrest : exceptMapM f as with
      | error e => rw [hrest] at h; cases h
      | ok bs =>
        rw [hrest] at h
        cases h
        constructor
        · intro hv
          rcases List.mem_cons.mp hv with hv | hv
          · exact ⟨a, List.mem_cons_self a as, hv ▸ hfa⟩
          · rcases (ih bs hrest v).mp hv with ⟨u, hu, hfu⟩
            exact ⟨u, List.mem_cons_of_mem a hu, hfu⟩
        · rintro ⟨u, hu, hfu⟩
          rcases List.mem_cons.mp hu with rfl | hu
          · rw [hfa] at hfu
            cases hfu
            exact List.mem_cons_self _ _
          · exact List.mem_cons_of_mem _ ((ih bs hrest v).mpr ⟨u, hu, hfu⟩)

lemma exceptMapM_error_of_mem {α β ε : Type} (f : α → Except ε β) (e₀ : ε)
    (hall : ∀ x e, f x = .error e → e = e₀) :
    ∀ (l : List α) (u : α), u ∈ l → (∀ v, f u ≠ .ok v) →
      exceptMapM f l = .error e₀ := by
  intro l
  induction l with
  | nil => intro u hu; cases hu
  | cons a as ih =>
    intro u hu hbad
    rw [exceptMapM]
    cases hfa : f a with
    | error e => rw [hall a e hfa]
    | ok b =>
      rcases List.mem_cons.mp hu with rfl | hu
      · exact absurd hfa (hbad b)
      · rw [ih u hu hbad]

/-- C4: `checkRemoteExists` returns true iff the normalized candidate URL
equals the normalized URL of some listed remote entry — where the entry
list (`getRemoteList`) keeps only fetch lines and excludes `origin` and
`undefined` entries — i.e. comparison is by canonical URL, not by remote
name. -/
theorem checkRemoteExists_by_canonical_url (raw url : String)
    (norms : List String) (v : String)
    (h1 : exceptMapM normalizeUrl (remoteUrlCandidates raw) = .ok norms)
    (h2 : normalizeUrl url = .ok v) :
    checkRemoteExists raw url = .ok true ↔
      ∃ u ∈ remoteUrlCandidates raw, normalizeUrl u = .ok v := by
  rw [checkRemoteExists, h1, h2]
  simp only [Except.ok.injEq]
  have hc : norms.contains v = true ↔ v ∈ norms := by
    simp [List.contains_eq_any_beq]
  rw [hc]
  exact exceptMapM_mem normalizeUrl (remoteUrlCandidates raw) norms h1 v

/-- Witness for C4: with connected remotes `[{name: "a",
url: "https://h/o/r.git"}]` (plus an excluded `origin` entry and push
lines), `checkRemoteExists "git@h:o/r.git"` returns true — the SSH and
HTTPS spellings meet at the same canonical URL. -/
theorem checkRemoteExists_by_canonical_url_witness :
    (checkRemoteExists rawRemotes "git@h:o/r.git" = .ok true ↔
      ∃ u ∈ remoteUrlCandidates rawRemotes, normalizeUrl u = .ok "https://h/o/r.git") ∧
    checkRemoteExists rawRemotes "git@h:o/r.git" = .ok true :=
  ⟨checkRemoteExists_by_canonical_url rawRemotes "git@h:o/r.git"
      ["https://h/o/r.git"] "https://h/o/r.git" rfl rfl,
   by rfl⟩

lemma normalizeUrl_error_eq : ∀ (x : String) (e : Nat),
    normalizeUrl x = .error e → e = 1 := by
  intro x e h
  rw [normalizeUrl] at h
  cases hs : sshMatch x with
  | some p =>
    obtain ⟨a, b, c⟩ := p
    rw [hs] at h
    simp at h
  | none =>
    rw [hs] at h
    cases hh : httpsMatch x with
    | some p =>
      obtain ⟨a, b, c⟩ := p
      rw [hh] at h
      simp at h
    | none =>
      rw [hh] at h
      injection h with h1
      exact h1.symm

/-- C9: if any listed remote URL (after the line-splitting steps of
`checkRemoteExists`) matches neither recognized URL pattern, then
`checkRemoteExists` never returns a boolean at all: `normalizeUrl`
terminates the run with exit code 1 while normalizing the remote list,
before the candidate URL is ever normalized or compared — uniformly in
the candidate. -/
theorem checkRemoteExists_invalid_remote_fatal (raw u : String)
    (hu : u ∈ remoteUrlCandidates raw) (hbad : normalizeUrl u = .error 1) :
    ∀ candidate : String, checkRemoteExists raw candidate = .error 1 := by
  intro candidate
  have hnotok : ∀ v, normalizeUrl u ≠ .ok v := by
    intro v hv
    rw [hbad] at hv
    cases hv
  have herr := exceptMapM_error_of_mem normalizeUrl 1 normalizeUrl_error_eq
    (remoteUrlCandidates raw) u hu hnotok
  rw [checkRemoteExists, herr]

/-- Witness for C9: a remote list containing the malformed URL
`not-a-url` makes `checkRemoteExists` exit with code 1 even though a
matching well-formed remote is also listed. -/
theorem checkRemoteExists_invalid_remote_fatal_witness :
    checkRemoteExists rawBadRemote "git@h:o/r.git" = .error 1 ∧
    normalizeUrl "not-a-url" = .error 1 :=
  ⟨checkRemoteExists_invalid_remote_fatal rawBadRemote "not-a-url"
      (by decide) rfl "git@h:o/r.git",
   rfl⟩

lemma find?_filter_ne (l : List (String × String)) (name src : String)
    (h : src ≠ name) :
    (l.filter (fun p => !(p.1 == name))).find? (fun p => p.1 == src) =
      l.find? (fun p => p.1 == src) := by
  induction l with
  | nil => rfl
  | cons hd tl ih =>
    by_cases hn : hd.1 = name
    · have hsrc : ¬ ((hd.1 == src) = true) := by
        rw [hn]
        simp only [beq_iff_eq]
        exact fun he => h he.symm
      rw [List.filter_cons_of_neg (by simp [hn]),
        List.find?_cons_of_neg (p := fun q => q.1 == src) tl hsrc, ih]
    · by_cases hs : hd.1 = src
      · rw [List.filter_cons_of_pos (by simp [hn]),
          List.find?_cons_of_pos _ (by simp [hs]),
          List.find?_cons_of_pos _ (by simp [hs])]
      · rw [List.filter_cons_of_pos (by simp [hn]),
          List.find?_cons_of_neg _ (by simp [hs]),
          List.find?_cons_of_neg _ (by simp [hs]), ih]

lemma resolveRef_filter_ne (branches : List (String × String)) (cur cur2 : String)
    (name src : String) (h : src ≠ name) :
    resolveRef ⟨branches.filter (fun p => !(p.1 == name)), cur⟩ src =
      resolveRef ⟨branches, cur2⟩ src := by
  simp [resolveRef, find?_filter_ne branches name src h]

lemma createTemporaryBranch_success (env : Env) (name src : String) (st : GitState)
    (h1 : env (.branchList name) = true) (h2 : env (.branchDelete name) = true)
    (h3 : env (.checkoutNew name src) = true) (hne : src ≠ name) :
    createTemporaryBranch env name src st =
      ⟨.ok (),
        ⟨(name, resolveRef st src) :: st.branches.filter (fun p => !(p.1 == name)), name⟩,
        if branchExistsB st name then
          [.branchList name, .branchDelete name, .checkoutNew name src]
        else [.branchList name, .checkoutNew name src]⟩ := by
  by_cases hex : branchExistsB st name
  · have hres : resolveRef
        { st with branches := st.branches.filter (fun p => !(p.1 == name)) } src =
        resolveRef st src := by
      cases st with
      | mk brs cur => exact resolveRef_filter_ne brs cur cur name src hne
    simp [createTemporaryBranch, handleBranchExists, handleDeleteBranch,
      checkoutNewStep, rbind, h1, h2, h3, hex, hres]
  · have hfalse : branchExistsB st name = false := by
      cases hb : branchExistsB st name
      · rfl
      · exact absurd hb hex
    simp only [branchExistsB] at hfalse
    have hall := List.any_eq_false.mp hfalse
    have hf : st.branches.filter (fun p => !(p.1 == name)) = st.branches := by
      apply List.filter_eq_self.mpr
      intro p hp
      simpa using hall p hp
    simp [createTemporaryBranch, handleBranchExists, checkoutNewStep, rbind,
      h1, h3, hex, hf]

/-- C5: running `createTemporaryBranch name src` twice in a row (on an
all-successful command oracle) leaves exactly one local branch named
`name`, pointing at the resolution of `src`; the second call's command
trace is exactly list-branch, force-delete, checkout-new, i.e. it deletes
the pre-existing branch before recreating it.  And when the force-delete
of the pre-existing branch fails, the call exits with code 1, changes no
branch state, and never attempts the re-creating checkout. -/
theorem createTemporaryBranch_recreate_spec (env : Env) (name src : String)
    (st : GitState) (hne : src ≠ name) :
    ((env (.branchList name) = true ∧ env (.branchDelete name) = true ∧
        env (.checkoutNew name src) = true) →
      (createTemporaryBranch env name src st).res = .ok () ∧
      (createTemporaryBranch env name src
          (createTemporaryBranch env name src st).state).res = .ok () ∧
      (createTemporaryBranch env name src
          (createTemporaryBranch env name src st).state).state.branches.filter
        (fun p => p.1 == name) = [(name, resolveRef st src)] ∧
      (createTemporaryBranch env name src
          (createTemporaryBranch env name src st).state).trace =
        [.branchList name, .branchDelete name, .checkoutNew name src])
    ∧ ((env (.branchList name) = true ∧ env (.branchDelete name) = false ∧
          branchExistsB st name = true) →
        (createTemporaryBranch env name src st).res = .error 1 ∧
        (createTemporaryBranch env name src st).state = st ∧
        GCmd.checkoutNew name src ∉ (createTemporaryBranch env name src st).trace) := by
  constructor
  · rintro ⟨h1, h2, h3⟩
    have e1 := createTemporaryBranch_success env name src st h1 h2 h3 hne
    set filtered := st.branches.filter (fun p => !(p.1 == name)) with hfil
    have hst1 : (createTemporaryBranch env name src st).state =
        ⟨(name, resolveRef st src) :: filtered, name⟩ := by rw [e1]
    have e2 := createTemporaryBranch_success env name src
      ⟨(name, resolveRef st src) :: filtered, name⟩ h1 h2 h3 hne
    have hex1 : branchExistsB ⟨(name, resolveRef st src) :: filtered, name⟩ name = true := by
      simp [branchExistsB]
    have hrv : resolveRef ⟨(name, resolveRef st src) :: filtered, name⟩ src =
        resolveRef st src := by
      have hns : (name == src) = false := by
        simp
        exact fun he => hne he.symm
      cases st with
      | mk brs cur =>
        simp only [resolveRef, List.find?_cons, hns]
        rw [hfil]
        simp only [resolveRef] at *
        rw [find?_filter_ne brs name src hne]
    have hff : filtered.filter (fun p => !(p.1 == name)) = filtered := by
      apply List.filter_eq_self.mpr
      intro p hp
      rw [hfil] at hp
      simpa using (List.mem_filter.mp hp).2
    have hffnil : filtered.filter (fun p => p.1 == name) = [] := by
      rw [List.filter_eq_nil_iff]
      intro p hp
      rw [hfil] at hp
      simpa using (List.mem_filter.mp hp).2
    refine ⟨by rw [e1], ?_, ?_, ?_⟩
    · rw [hst1, e2]
    · rw [hst1, e2]
      simp only [hex1, if_true]
      simp only [List.filter_cons, hff, hrv]
      simp [hffnil]
    · rw [hst1, e2]
      simp [hex1]
  · rintro ⟨h1, h2, hex⟩
    refine ⟨?_, ?_, ?_⟩ <;>
      simp [createTemporaryBranch, handleBranchExists, handleDeleteBranch,
        checkoutNewStep, rbind, h1, h2, hex]

/-- Witness for C5: recreating `temp-main` from `lib/main` twice on an
all-successful oracle leaves exactly one `temp-main` branch pointing at
`lib/main`, via a delete-then-create second call; and on an oracle whose
branch deletion fails, a repository with a stale `temp-main` makes the
call exit with code 1, leaving the state unchanged and never attempting
the checkout. -/
theorem createTemporaryBranch_recreate_spec_witness :
    ((createTemporaryBranch envAll "temp-main" "lib/main" stMain).res = .ok () ∧
      (createTemporaryBranch envAll "temp-main" "lib/main"
          (createTemporaryBranch envAll "temp-main" "lib/main" stMain).state).res = .ok () ∧
      (createTemporaryBranch envAll "temp-main" "lib/main"
          (createTemporaryBranch envAll "temp-main" "lib/main" stMain).state).state.branches.filter
        (fun p => p.1 == "temp-main") = [("temp-main", resolveRef stMain "lib/main")] ∧
      (createTemporaryBranch envAll "temp-main" "lib/main"
          (createTemporaryBranch envAll "temp-main" "lib/main" stMain).state).trace =
        [.branchList "temp-main", .branchDelete "temp-main",
          .checkoutNew "temp-main" "lib/main"]) ∧
    ((createTemporaryBranch envNoDel "temp-main" "lib/main" stStaleTemp).res = .error 1 ∧
      (createTemporaryBranch envNoDel "temp-main" "lib/main" stStaleTemp).state = stStaleTemp ∧
      GCmd.checkoutNew "temp-main" "lib/main" ∉
        (createTemporaryBranch envNoDel "temp-main" "lib/main" stStaleTemp).trace) :=
  ⟨(createTemporaryBranch_recreate_spec envAll "temp-main" "lib/main" stMain
      (by decide)).1 ⟨rfl, rfl, rfl⟩,
   (createTemporaryBranch_recreate_spec envNoDel "temp-main" "lib/main" stStaleTemp
      (by decide)).2 ⟨rfl, rfl, by decide⟩⟩

lemma createTemporaryBranch_trace_sub (env : Env) (n s : String) (st : GitState) :
    (createTemporaryBranch env n s st).trace = [GCmd.branchList n] ∨
    (createTemporaryBranch env n s st).trace = [GCmd.branchList n, GCmd.branchDelete n] ∨
    (createTemporaryBranch env n s st).trace =
      [GCmd.branchList n, GCmd.branchDelete n, GCmd.checkoutNew n s] ∨
    (createTemporaryBranch env n s st).trace = [GCmd.branchList n, GCmd.checkoutNew n s] := by
  simp only [createTemporaryBranch, handleBranchExists, handleDeleteBranch,
    checkoutNewStep, rbind]
  by_cases h1 : env (GCmd.branchList n) = true
  · simp only [h1, if_true]
    by_cases hex : branchExistsB st n = true
    · simp only [hex, if_true]
      by_cases h2 : env (GCmd.branchDelete n) = true
      · simp only [h2, if_true]
        by_cases h3 : env (GCmd.checkoutNew n s) = true
        · simp [h3]
        · simp [eq_false_of_ne_true h3]
      · simp [eq_false_of_ne_true h2]
    · simp only [eq_false_of_ne_true hex, if_false]
      by_cases h3 : env (GCmd.checkoutNew n s) = true
      · simp [h3]
      · simp [eq_false_of_ne_true h3]
  · simp [eq_false_of_ne_true h1]

lemma switchTargetBranch_trace_sub (env : Env) (t : String) (st : GitState) :
    (switchTargetBranch env t st).trace = [GCmd.branchList t] ∨
    (switchTargetBranch env t st).trace = [GCmd.branchList t, GCmd.checkout t] ∨
    (switchTargetBranch env t st).trace =
      [GCmd.branchList t, GCmd.checkoutNewHead t] ∨
    (switchTargetBranch env t st).trace =
      [GCmd.branchList t, GCmd.checkoutNewHead t, GCmd.pushUpstream t] := by
  simp only [switchTargetBranch, handleBranchExists, rbind]
  by_cases h1 : env (GCmd.branchList t) = true
  · simp only [h1, if_true]
    by_cases hex : branchExistsB st t = true
    · simp only [hex, if_true]
      by_cases h2 : env (GCmd.checkout t) = true
      · simp [h2]
      · simp [eq_false_of_ne_true h2]
    · simp only [eq_false_of_ne_true hex, if_false]
      by_cases h3 : env (GCmd.checkoutNewHead t) = true
      · simp only [h3, if_true]
        by_cases h4 : env (GCmd.pushUpstream t) = true
        · simp [h4]
        · simp [eq_false_of_ne_true h4]
      · simp [eq_false_of_ne_true h3]
  · simp [eq_false_of_ne_true h1]

lemma createTemporaryBranch_trace_ne_cherry (env : Env) (n s : String)
    (st : GitState) (hsh : String) :
    ∀ c ∈ (createTemporaryBranch env n s st).trace, c ≠ GCmd.cherryPick hsh := by
  rcases createTemporaryBranch_trace_sub env n s st with h | h | h | h <;>
    rw [h] <;> simp

lemma switchTargetBranch_trace_ne_cherry (env : Env) (t : String)
    (st : GitState) (hsh : String) :
    ∀ c ∈ (switchTargetBranch env t st).trace, c ≠ GCmd.cherryPick hsh := by
  rcases switchTargetBranch_trace_sub env t st with h | h | h | h <;>
    rw [h] <;> simp

lemma cons_append_split {α : Type} (a x : α) (l1 l2 dump : List α) :
    a :: (l1 ++ l2 ++ x :: dump) = (a :: (l1 ++ l2)) ++ x :: dump := by simp

lemma append_cons_append {α : Type} (L dump rest : List α) (x : α) :
    (L ++ x :: dump) ++ rest = L ++ x :: (dump ++ rest) := by simp

lemma dropWhile_all_ne (hsh : String) (l : List GCmd)
    (h : ∀ c ∈ l, c ≠ GCmd.cherryPick hsh) :
    l.dropWhile (fun x => !(x == GCmd.cherryPick hsh)) = [] := by
  rw [List.dropWhile_eq_nil_iff]
  intro c hc
  simpa using h c hc

lemma dropWhile_to_cherry (hsh : String) (l rest : List GCmd)
    (h : ∀ c ∈ l, c ≠ GCmd.cherryPick hsh) :
    (l ++ GCmd.cherryPick hsh :: rest).dropWhile
      (fun x => !(x == GCmd.cherryPick hsh)) = GCmd.cherryPick hsh :: rest := by
  induction l with
  | nil => simp [List.dropWhile_cons]
  | cons a as ih =>
    have ha : a ≠ GCmd.cherryPick hsh := h a (List.mem_cons_self a as)
    have hrest : ∀ c ∈ as, c ≠ GCmd.cherryPick hsh :=
      fun c hc => h c (List.mem_cons_of_mem a hc)
    simpa [List.dropWhile_cons, ha] using ih hrest

/-- The portion of a `mainPipeline` trace from the cherry-pick command
onwards contains only the cherry-pick itself, the one-time status dump,
and possibly the final force-push. -/
lemma mainPipeline_suffix_cmds (env : Env) (cfg : CherryConfig)
    (events : List CpEvent) (confirm : Bool) (st : GitState) :
    ∀ c ∈ (mainPipeline env cfg events confirm st).trace.dropWhile
        (fun x => !(x == GCmd.cherryPick cfg.commitHash)),
      c = GCmd.cherryPick cfg.commitHash ∨ c = GCmd.gitStatus ∨
        c = GCmd.pushForce ("temp-" ++ cfg.sourceBranch) cfg.targetBranch := by
  have hpre : ∀ c ∈ (GCmd.fetchCmd cfg.usingRemoteName cfg.sourceBranch ::
      ((createTemporaryBranch env ("temp-" ++ cfg.sourceBranch)
          (cfg.usingRemoteName ++ "/" ++ cfg.sourceBranch) st).trace ++
        (switchTargetBranch env cfg.targetBranch
          (createTemporaryBranch env ("temp-" ++ cfg.sourceBranch)
            (cfg.usingRemoteName ++ "/" ++ cfg.sourceBranch) st).state).trace)),
      c ≠ GCmd.cherryPick cfg.commitHash := by
    intro c hc
    rcases List.mem_cons.mp hc with rfl | hc
    · simp
    · rcases List.mem_append.mp hc with hc | hc
      · exact createTemporaryBranch_trace_ne_cherry env _ _ st cfg.commitHash c hc
      · exact switchTargetBranch_trace_ne_cherry env _ _ cfg.commitHash c hc
  intro c hc
  simp only [mainPipeline] at hc
  by_cases hf : env (GCmd.fetchCmd cfg.usingRemoteName cfg.sourceBranch) = true
  · simp only [hf, if_true] at hc
    cases hr1 : (createTemporaryBranch env ("temp-" ++ cfg.sourceBranch)
        (cfg.usingRemoteName ++ "/" ++ cfg.sourceBranch) st).res with
    | error e =>
      rw [hr1] at hc
      simp only at hc
      rw [dropWhile_all_ne cfg.commitHash _ (by
        intro x hx
        rcases List.mem_cons.mp hx with rfl | hx
        · simp
        · exact createTemporaryBranch_trace_ne_cherry env _ _ st cfg.commitHash x hx)] at hc
      cases hc
    | ok u =>
      rw [hr1] at hc
      simp only at hc
      cases hr2 : (switchTargetBranch env cfg.targetBranch
          (createTemporaryBranch env ("temp-" ++ cfg.sourceBranch)
            (cfg.usingRemoteName ++ "/" ++ cfg.sourceBranch) st).state).res with
      | error e =>
        rw [hr2] at hc
        simp only at hc
        rw [dropWhile_all_ne cfg.commitHash _ hpre] at hc
        cases hc
      | ok v =>
        rw [hr2] at hc
        simp only at hc
        by_cases hcp : env (GCmd.cherryPick cfg.commitHash) = true
        · simp only [hcp, if_true] at hc
          cases hpm : (cpRun events).promise with
          | pending =>
            rw [hpm] at hc
            simp only at hc
            rw [dropWhile_to_cherry cfg.commitHash _ _ hpre] at hc
            rcases List.mem_cons.mp hc with rfl | hc
            · exact Or.inl rfl
            · by_cases hd : (cpRun events).statusDumps = 0
              · simp [hd] at hc
              · simp [hd] at hc
                subst hc
                exact Or.inr (Or.inl rfl)
          | rejected =>
            rw [hpm] at hc
            simp only at hc
            rw [dropWhile_to_cherry cfg.commitHash _ _ hpre] at hc
            rcases List.mem_cons.mp hc with rfl | hc
            · exact Or.inl rfl
            · by_cases hd : (cpRun events).statusDumps = 0
              · simp [hd] at hc
              · simp [hd] at hc
                subst hc
                exact Or.inr (Or.inl rfl)
          | resolved =>
            rw [hpm] at hc
            simp only at hc
            by_cases hcf : confirm = true
            · simp only [hcf, if_true] at hc
              by_cases hpf : env (GCmd.pushForce ("temp-" ++ cfg.sourceBranch)
                  cfg.targetBranch) = true
              · simp only [hpf, if_true] at hc
                rw [append_cons_append,
                  dropWhile_to_cherry cfg.commitHash _ _ hpre] at hc
                rcases List.mem_cons.mp hc with rfl | hc
                · exact Or.inl rfl
                · by_cases hd : (cpRun events).statusDumps = 0
                  · simp [hd] at hc
                    subst hc
                    exact Or.inr (Or.inr rfl)
                  · simp [hd] at hc
                    rcases hc with rfl | rfl
                    · exact Or.inr (Or.inl rfl)
                    · exact Or.inr (Or.inr rfl)
              · simp only [eq_false_of_ne_true hpf, Bool.false_eq_true, if_false] at hc
                rw [append_cons_append,
                  dropWhile_to_cherry cfg.commitHash _ _ hpre] at hc
                rcases List.mem_cons.mp hc with rfl | hc
                · exact Or.inl rfl
                · by_cases hd : (cpRun events).statusDumps = 0
                  · simp [hd] at hc
                    subst hc
                    exact Or.inr (Or.inr rfl)
                  · simp [hd] at hc
                    rcases hc with rfl | rfl
                    · exact Or.inr (Or.inl rfl)
                    · exact Or.inr (Or.inr rfl)
            · simp only [eq_false_of_ne_true hcf, Bool.false_eq_true, if_false] at hc
              rw [dropWhile_to_cherry cfg.commitHash _ _ hpre] at hc
              rcases List.mem_cons.mp hc with rfl | hc
              · exact Or.inl rfl
              · by_cases hd : (cpRun events).statusDumps = 0
                · simp [hd] at hc
                · simp [hd] at hc
                  subst hc
                  exact Or.inr (Or.inl rfl)
        · simp only [eq_false_of_ne_true hcp, Bool.false_eq_true, if_false] at hc
          rw [dropWhile_to_cherry cfg.commitHash _ _ hpre] at hc
          rcases List.mem_cons.mp hc with rfl | hc
          · exact Or.inl rfl
          · cases hc
  · simp only [eq_false_of_ne_true hf, Bool.false_eq_true, if_false] at hc
    rw [dropWhile_all_ne cfg.commitHash _ (by intro x hx; simp at hx; subst hx; simp)] at hc
    cases hc

/-- C6: `switchTargetBranch` pushes to a remote iff the target branch did
not already exist: on an existing branch it only switches (trace is
branch-list then checkout, no push, branch list unchanged); on an absent
branch it creates it from the current HEAD and immediately pushes it
upstream.  Moreover, in the `main` pipeline every upstream push occurs
strictly before the cherry-pick command. -/
theorem switchTargetBranch_push_iff_new (env : Env) (t : String) (st : GitState) :
    ((env (.branchList t) = true ∧ branchExistsB st t = true ∧
        env (.checkout t) = true) →
      switchTargetBranch env t st =
        ⟨.ok (), { st with current := t }, [.branchList t, .checkout t]⟩)
    ∧ ((env (.branchList t) = true ∧ branchExistsB st t = false ∧
          env (.checkoutNewHead t) = true ∧ env (.pushUpstream t) = true) →
        switchTargetBranch env t st =
          ⟨.ok (), ⟨(t, resolveRef st st.current) :: st.branches, t⟩,
            [.branchList t, .checkoutNewHead t, .pushUpstream t]⟩)
    ∧ (∀ (cfg : CherryConfig) (events : List CpEvent) (confirm : Bool)
        (st0 : GitState) (n : String),
        GCmd.pushUpstream n ∉
          (mainPipeline env cfg events confirm st0).trace.dropWhile
            (fun x => !(x == GCmd.cherryPick cfg.commitHash))) := by
  refine ⟨?_, ?_, ?_⟩
  · rintro ⟨h1, hex, h2⟩
    simp [switchTargetBranch, handleBranchExists, rbind, h1, hex, h2]
  · rintro ⟨h1, hex, h3, h4⟩
    simp [switchTargetBranch, handleBranchExists, rbind, h1, hex, h3, h4]
  · intro cfg events confirm st0 n hmem
    rcases mainPipeline_suffix_cmds env cfg events confirm st0 _ hmem with h | h | h <;>
      simp at h

/-- Witness for C6: with `release` already present, the switch performs
no push and changes only the checked-out branch; with `release` absent,
it creates the branch at the current HEAD and pushes it upstream; and in
a full pipeline run no upstream push occurs at or after the cherry-pick
command. -/
theorem switchTargetBranch_push_iff_new_witness :
    switchTargetBranch envAll "release" stMain =
      ⟨.ok (), { stMain with current := "release" },
        [.branchList "release", .checkout "release"]⟩ ∧
    switchTargetBranch envAll "release" stNoRelease =
      ⟨.ok (), ⟨("release", resolveRef stNoRelease stNoRelease.current) ::
          stNoRelease.branches, "release"⟩,
        [.branchList "release", .checkoutNewHead "release", .pushUpstream "release"]⟩ ∧
    GCmd.pushUpstream "release" ∉
      (mainPipeline envAll cfgA [CpEvent.closeEvt 0] true stNoRelease).trace.dropWhile
        (fun x => !(x == GCmd.cherryPick cfgA.commitHash)) :=
  ⟨(switchTargetBranch_push_iff_new envAll "release" stMain).1 ⟨rfl, rfl, rfl⟩,
   (switchTargetBranch_push_iff_new envAll "release" stNoRelease).2.1 ⟨rfl, rfl, rfl, rfl⟩,
   (switchTargetBranch_push_iff_new envAll "release" stNoRelease).2.2 cfgA
     [CpEvent.closeEvt 0] true stNoRelease "release"⟩

lemma branchExistsB_cons_self (n x : String) (l : List (String × String))
    (cur : String) : branchExistsB ⟨(n, x) :: l, cur⟩ n = true := by
  simp [branchExistsB]

lemma branchExistsB_cons_of (n t x : String) (l : List (String × String))
    (cur cur2 : String) (h : branchExistsB ⟨l, cur2⟩ n = true) :
    branchExistsB ⟨(t, x) :: l, cur⟩ n = true := by
  simp only [branchExistsB, List.any_cons] at h ⊢
  simp [h]

lemma createTemporaryBranch_ok_exists (env : Env) (n s : String) (st : GitState)
    (h : (createTemporaryBranch env n s st).res = .ok ()) :
    branchExistsB (createTemporaryBranch env n s st).state n = true := by
  by_cases h1 : env (GCmd.branchList n) = true
  · by_cases hex : branchExistsB st n = true
    · by_cases h2 : env (GCmd.branchDelete n) = true
      · by_cases h3 : env (GCmd.checkoutNew n s) = true
        · simp only [createTemporaryBranch, handleBranchExists,
            handleDeleteBranch, checkoutNewStep, rbind, h1, hex, h2, h3,
            if_true]
          exact branchExistsB_cons_self n _ _ n
        · exfalso
          simp [createTemporaryBranch, handleBranchExists, handleDeleteBranch,
            checkoutNewStep, rbind, h1, hex, h2, eq_false_of_ne_true h3] at h
      · exfalso
        simp [createTemporaryBranch, handleBranchExists, handleDeleteBranch,
          rbind, h1, hex, eq_false_of_ne_true h2] at h
    · by_cases h3 : env (GCmd.checkoutNew n s) = true
      · simp only [createTemporaryBranch, handleBranchExists, checkoutNewStep,
          rbind, h1, eq_false_of_ne_true hex, h3, if_true, Bool.false_eq_true,
          if_false]
        exact branchExistsB_cons_self n _ _ n
      · exfalso
        simp [createTemporaryBranch, handleBranchExists, checkoutNewStep, rbind,
          h1, eq_false_of_ne_true hex, eq_false_of_ne_true h3] at h
  · exfalso
    simp [createTemporaryBranch, handleBranchExists, rbind,
      eq_false_of_ne_true h1] at h

lemma switchTargetBranch_preserves (env : Env) (t : String) (st : GitState)
    (n : String) (h : branchExistsB st n = true) :
    branchExistsB (switchTargetBranch env t st).state n = true := by
  have hst : branchExistsB ⟨st.branches, st.current⟩ n = true := by
    cases st
    exact h
  by_cases h1 : env (GCmd.branchList t) = true
  · by_cases hex : branchExistsB st t = true
    · by_cases h2 : env (GCmd.checkout t) = true
      · simp only [switchTargetBranch, handleBranchExists, rbind, h1, hex, h2,
          if_true]
        cases st
        exact h
      · simp only [switchTargetBranch, handleBranchExists, rbind, h1, hex,
          eq_false_of_ne_true h2, if_true, Bool.false_eq_true, if_false]
        exact h
    · by_cases h3 : env (GCmd.checkoutNewHead t) = true
      · by_cases h4 : env (GCmd.pushUpstream t) = true
        · simp only [switchTargetBranch, handleBranchExists, rbind, h1,
            eq_false_of_ne_true hex, h3, h4, if_true, Bool.false_eq_true,
            if_false]
          cases st with
          | mk brs cur => exact branchExistsB_cons_of n t _ brs t cur hst
        · simp only [switchTargetBranch, handleBranchExists, rbind, h1,
            eq_false_of_ne_true hex, h3, eq_false_of_ne_true h4, if_true,
            Bool.false_eq_true, if_false]
          cases st with
          | mk brs cur => exact branchExistsB_cons_of n t _ brs t cur hst
      · simp only [switchTargetBranch, handleBranchExists, rbind, h1,
          eq_false_of_ne_true hex, eq_false_of_ne_true h3, if_true,
          Bool.false_eq_true, if_false]
        exact h
  · simp only [switchTargetBranch, handleBranchExists, rbind,
      eq_false_of_ne_true h1, Bool.false_eq_true, if_false]
    exact h

/-- C2 counterexample: a complete, pushed run (scenario A repository,
all commands succeed, clean cherry-pick, user confirms the push) whose
command trace — listed in full — contains no branch-deletion command at
all, and whose final state still contains the temporary branch
`temp-main`.  The orchestrator therefore does not delete the temporary
branch as a final cleanup step. -/
theorem main_no_temp_cleanup_counterexample :
    (mainPipeline envAll cfgA [CpEvent.closeEvt 0] true stNoRelease).outcome =
      MainOutcome.pushed ∧
    (mainPipeline envAll cfgA [CpEvent.closeEvt 0] true stNoRelease).trace =
      [.fetchCmd "lib" "main", .branchList "temp-main",
       .checkoutNew "temp-main" "lib/main", .branchList "release",
       .checkoutNewHead "release", .pushUpstream "release",
       .cherryPick "abc123", .pushForce "temp-main" "release"] ∧
    branchExistsB (mainPipeline envAll cfgA [CpEvent.closeEvt 0] true
      stNoRelease).state "temp-main" = true := by
  refine ⟨by decide, by decide, by decide⟩

/-- C2 (amended): the orchestrator performs no temporary-branch cleanup
at the end of a run.  In every outcome that passes the cherry-pick stage
(pushed, completed-not-pushed, caught error, or the unsettled
non-zero-exit case) the temporary branch `temp-<sourceBranch>` is still
present in the final state, and no branch-delete command occurs at or
after the cherry-pick command; the only branch deletion the tool ever
performs is the stale-branch cleanup at the start of
`createTemporaryBranch`. -/
theorem mainPipeline_no_final_cleanup (env : Env) (cfg : CherryConfig)
    (events : List CpEvent) (confirm : Bool) (st : GitState)
    (hout : (mainPipeline env cfg events confirm st).outcome = MainOutcome.pushed ∨
      (mainPipeline env cfg events confirm st).outcome = MainOutcome.completedNotPushed ∨
      (mainPipeline env cfg events confirm st).outcome = MainOutcome.caughtError ∨
      (mainPipeline env cfg events confirm st).outcome = MainOutcome.neverSettled) :
    branchExistsB (mainPipeline env cfg events confirm st).state
      ("temp-" ++ cfg.sourceBranch) = true ∧
    ∀ d : String, GCmd.branchDelete d ∉
      (mainPipeline env cfg events confirm st).trace.dropWhile
        (fun x => !(x == GCmd.cherryPick cfg.commitHash)) := by
  constructor
  · by_cases hf : env (GCmd.fetchCmd cfg.usingRemoteName cfg.sourceBranch) = true
    · simp only [mainPipeline, hf, if_true] at hout ⊢
      cases hr1 : (createTemporaryBranch env ("temp-" ++ cfg.sourceBranch)
          (cfg.usingRemoteName ++ "/" ++ cfg.sourceBranch) st).res with
      | error e =>
        rw [hr1] at hout
        simp only at hout
        rcases hout with h | h | h | h <;> simp at h
      | ok u =>
        cases u
        rw [hr1] at hout
        simp only at hout ⊢
        have hte := createTemporaryBranch_ok_exists env ("temp-" ++ cfg.sourceBranch)
          (cfg.usingRemoteName ++ "/" ++ cfg.sourceBranch) st hr1
        have hkeep := switchTargetBranch_preserves env cfg.targetBranch
          (createTemporaryBranch env ("temp-" ++ cfg.sourceBranch)
            (cfg.usingRemoteName ++ "/" ++ cfg.sourceBranch) st).state
          ("temp-" ++ cfg.sourceBranch) hte
        cases hr2 : (switchTargetBranch env cfg.targetBranch
            (createTemporaryBranch env ("temp-" ++ cfg.sourceBranch)
              (cfg.usingRemoteName ++ "/" ++ cfg.sourceBranch) st).state).res with
        | error e =>
          rw [hr2] at hout
          simp only at hout
          rcases hout with h | h | h | h <;> simp at h
        | ok v =>
          by_cases hcp : env (GCmd.cherryPick cfg.commitHash) = true
          · simp only [hcp, if_true]
            cases hpm : (cpRun events).promise with
            | pending => simp only; exact hkeep
            | rejected => simp only; exact hkeep
            | resolved =>
              simp only
              by_cases hcf : confirm = true
              · simp only [hcf, if_true]
                by_cases hpf : env (GCmd.pushForce ("temp-" ++ cfg.sourceBranch)
                    cfg.targetBranch) = true
                · simp only [hpf, if_true]
                  exact hkeep
                · simp only [eq_false_of_ne_true hpf, Bool.false_eq_true, if_false]
                  exact hkeep
              · simp only [eq_false_of_ne_true hcf, Bool.false_eq_true, if_false]
                exact hkeep
          · simp only [eq_false_of_ne_true hcp, Bool.false_eq_true, if_false]
            exact hkeep
    · simp only [mainPipeline, eq_false_of_ne_true hf, Bool.false_eq_true,
        if_false] at hout
      rcases hout with h | h | h | h <;> simp at h
  · intro d hmem
    rcases mainPipeline_suffix_cmds env cfg events confirm st _ hmem with h | h | h <;>
      simp at h

/-- Witness for C2 (amended): in the concrete pushed run used as the
counterexample, the temporary branch is still present at the end and no
branch deletion occurs at or after the cherry-pick command. -/
theorem mainPipeline_no_final_cleanup_witness :
    branchExistsB (mainPipeline envAll cfgA [CpEvent.closeEvt 0] true
      stNoRelease).state ("temp-" ++ cfgA.sourceBranch) = true ∧
    ∀ d : String, GCmd.branchDelete d ∉
      (mainPipeline envAll cfgA [CpEvent.closeEvt 0] true stNoRelease).trace.dropWhile
        (fun x => !(x == GCmd.cherryPick cfgA.commitHash)) :=
  mainPipeline_no_final_cleanup envAll cfgA [CpEvent.closeEvt 0] true stNoRelease
    (Or.inl (by decide))

end Crcp
